import Mathlib

/-!
Verification of the sshhipot MitM SSH proxy against its specification.

The development shallowly embeds the Go source of the proxy: bytes are
natural numbers below 256, Go strings are Lean strings (or lists of
characters where character-level reasoning is needed), Go maps are
association lists, and operating-system effects (file creation, file
writes) are threaded explicitly through environment records.  Machine
unsigned integers are natural numbers with explicit wraparound modulo
2 to the 64 where the source can wrap.
-/

/-- Bytes of an SSH payload, each a natural number below 256. -/
abbrev ByteSeq := List Nat

/-- SSHRequest mirrors the fields of ssh.Request used by the proxy:
the request type, the want-reply flag and the payload bytes. -/
structure SSHRequest where
  reqType : String
  wantReply : Bool
  payload : ByteSeq
  deriving Repr, DecidableEq

/-- SendRequestResult is the outcome of a SendRequest call on an
ssh.Conn: either an error, or a boolean together with reply payload
bytes. -/
inductive SendRequestResult where
  | ok (b : Bool) (data : ByteSeq)
  | err (e : String)
  deriving Repr, DecidableEq

/-- RequestReceiver models the requestReceiver interface of request.go.
A conn receiver is an ssh.Conn, whose SendRequest yields a boolean and
payload bytes.  A chan receiver is a ChannelRequestReceiver wrapping an
ssh.Channel, whose underlying SendRequest yields only a boolean.  The
constructor argument records the outcome the peer produces for the one
SendRequest call the proxy makes. -/
inductive RequestReceiver where
  | conn (res : SendRequestResult)
  | chan (res : Except String Bool)
  deriving Repr

/-- sendRequest runs the SendRequest of a RequestReceiver.  For a chan
receiver this is ChannelRequestReceiver.SendRequest of request.go, which
wraps the boolean-only channel SendRequest and always returns a nil
(empty) byte slice. -/
def RequestReceiver.sendRequest : RequestReceiver → SendRequestResult
  | .conn r => r
  | .chan (.error e) => .err e
  | .chan (.ok b) => .ok b []

/-- ProxyResult is what ProxyRequest did: the reply handed back to the
original requester via r.Reply, if any, and the error returned. -/
structure ProxyResult where
  reply : Option (Bool × ByteSeq)
  error : Option String
  deriving Repr, DecidableEq

/-- ProxyRequest embeds ProxyRequest of request.go: forward r to rr via
SendRequest; on error return it; if no reply is wanted stop; otherwise
reply to the requester with the boolean and payload the peer produced.
The replyErr argument is the environment outcome of the r.Reply call
itself. -/
def ProxyRequest (rr : RequestReceiver) (r : SSHRequest)
    (replyErr : Option String) : ProxyResult :=
  match rr.sendRequest with
  | .err e => { reply := none, error := some e }
  | .ok ok b =>
    if !r.wantReply then { reply := none, error := none }
    else { reply := some (ok, b), error := replyErr }

/-- C1: a forwarded request with want-reply set whose peer answers
(ok, payload) without error gets replied to with (ok, payload) when the
receiver is a connection and with (ok, empty) when the receiver is a
channel; with want-reply unset no reply is ever sent. -/
theorem c1_request_proxy_reply (r : SSHRequest) (rr : RequestReceiver)
    (re : Option String) :
    (∀ ok data, r.wantReply = true → rr = .conn (.ok ok data) →
      ProxyRequest rr r re = { reply := some (ok, data), error := re }) ∧
    (∀ ok, r.wantReply = true → rr = .chan (.ok ok) →
      ProxyRequest rr r re = { reply := some (ok, []), error := re }) ∧
    (r.wantReply = false → (ProxyRequest rr r re).reply = none) := by
  refine ⟨?_, ?_, ?_⟩
  · intro ok data hw hr
    subst hr
    simp [ProxyRequest, RequestReceiver.sendRequest, hw]
  · intro ok hw hr
    subst hr
    simp [ProxyRequest, RequestReceiver.sendRequest, hw]
  · intro hw
    cases rr with
    | conn res =>
      cases res <;> simp [ProxyRequest, RequestReceiver.sendRequest, hw]
    | chan res =>
      cases res <;> simp [ProxyRequest, RequestReceiver.sendRequest, hw]

/-- Witness for C1 at concrete inputs. -/
theorem c1_request_proxy_reply_witness :
    ProxyRequest (.conn (.ok true [1, 2])) ⟨"x", true, [3]⟩ none
      = { reply := some (true, [1, 2]), error := none } ∧
    ProxyRequest (.chan (.ok true)) ⟨"x", true, [3]⟩ none
      = { reply := some (true, []), error := none } ∧
    (ProxyRequest (.conn (.ok true [1, 2])) ⟨"x", false, [3]⟩ none).reply
      = none :=
  ⟨(c1_request_proxy_reply ⟨"x", true, [3]⟩ (.conn (.ok true [1, 2])) none).1
      true [1, 2] rfl rfl,
   (c1_request_proxy_reply ⟨"x", true, [3]⟩ (.chan (.ok true)) none).2.1
      true rfl rfl,
   (c1_request_proxy_reply ⟨"x", false, [3]⟩ (.conn (.ok true [1, 2]))
      none).2.2 rfl⟩

/-- U64 is the modulus of the 64-bit unsigned integers Go uses for the
uint fields of the recorder. -/
def U64 : Nat := 2 ^ 64

/-- goUintSub models Go subtraction of two uint values, which wraps
modulo 2 to the 64. -/
def goUintSub (a b : Nat) : Nat := (a % U64 + U64 - b % U64) % U64

/-- LogFile mirrors the LogFile structure of cast.go.  The os.File
pointer is abstracted to the boolean fOpen (true when l.f is not nil),
and the time.Time start field to the boolean started (true when l.start
is not the zero time, as tested by IsZero). -/
structure LogFile where
  tag : String
  max : Nat
  nw : Nat
  fname : String
  fOpen : Bool
  done : Bool
  header : Bool
  term : ByteSeq
  width : Nat
  height : Nat
  command : ByteSeq
  started : Bool
  deriving Repr, DecidableEq

/-- initLogFile is the LogFile literal built in HandleChannel of
channel.go: filename, tag and maximum size set, everything else at its
zero value. -/
def initLogFile (fname tag : String) (max : Nat) : LogFile :=
  { tag := tag, max := max, nw := 0, fname := fname, fOpen := false,
    done := false, header := false, term := [], width := 0, height := 0,
    command := [], started := false }

/-- FileLine is one line appended to the asciicast file: the header
line, or an event line whose marshalled JSON has the recorded byte
length. -/
inductive FileLine where
  | headerLine
  | eventLine (len : Nat)
  deriving Repr, DecidableEq

/-- WriteEnv carries the outcomes of the operating-system calls one
WriteShell call can make, plus the byte length of the marshalled event
JSON (which depends on the wall-clock timestamp of the event and so is
an input of the model). -/
structure WriteEnv where
  mkdirOk : Bool
  createOk : Bool
  headerWriteOk : Bool
  eventWriteOk : Bool
  jsonLen : Nat
  deriving Repr, DecidableEq

/-- WriteResult is the outcome of one WriteShell call: the updated
recorder, the lines appended to the file, the integer count returned,
the error returned (none for success) and whether the call panicked. -/
structure WriteResult where
  lf : LogFile
  file : List FileLine
  n : Nat
  err : Option String
  panicked : Bool
  deriving Repr, DecidableEq

/-- WriteHeader embeds LogFile.WriteHeader of cast.go.  Marshalling the
header structure cannot fail, so the only failure is the file write,
which closes the file and marks the recorder done. -/
def LogFile.WriteHeader (l : LogFile) (writeOk : Bool) :
    LogFile × List FileLine × Option String :=
  if writeOk then ({ l with header := true }, [FileLine.headerLine], none)
  else ({ l with done := true }, [], some "header write failed")

/-- WriteShell embeds LogFile.WriteShell of cast.go.  A done or
not-yet-started recorder reports success for the full length without
touching the file.  Otherwise the file is opened on first use (directory
creation then file creation, either failure marking the recorder done),
the header is written if it has not been, the event is marshalled, and
the event is dropped, closing the file, when its JSON is longer than
max minus nw (computed with wrapping uint subtraction, as in Go).
The two panics of the source (empty filename, bad direction) are
surfaced in the panicked flag. -/
def LogFile.WriteShell (l : LogFile) (b : ByteSeq) (d : String)
    (env : WriteEnv) : WriteResult :=
  if l.done then ⟨l, [], b.length, none, false⟩
  else if l.started = false then ⟨l, [], b.length, none, false⟩
  else if l.fOpen = false ∧ l.fname = "" then ⟨l, [], 0, none, true⟩
  else if l.fOpen = false ∧ env.mkdirOk = false then
    ⟨{ l with done := true }, [], 0, some "mkdir failed", false⟩
  else if l.fOpen = false ∧ env.createOk = false then
    ⟨{ l with done := true }, [], 0, some "create failed", false⟩
  else
    let l1 := { l with fOpen := true }
    if l1.header = false ∧ env.headerWriteOk = false then
      ⟨{ l1 with done := true }, [], 0, some "header write failed", false⟩
    else
      let hl : List FileLine :=
        if l1.header then [] else [FileLine.headerLine]
      let l2 := { l1 with header := true }
      if d ≠ "i" ∧ d ≠ "o" then ⟨l2, hl, 0, none, true⟩
      else if env.jsonLen > goUintSub l2.max l2.nw then
        ⟨{ l2 with done := true }, hl, b.length, none, false⟩
      else if env.eventWriteOk = false then
        ⟨{ l2 with done := true }, hl, 0, some "event write failed", false⟩
      else ⟨l2, hl ++ [FileLine.eventLine env.jsonLen], b.length, none, false⟩

/-- Close embeds LogFile.Close of cast.go: a no-op once done, otherwise
it marks the recorder done and closes the file. -/
def LogFile.CloseOp (l : LogFile) : LogFile :=
  if l.done then l else { l with done := true }

/-- Start embeds LogFile.Start of cast.go: an error after the recorder
is done or when already started, otherwise it records the command and
the (nonzero) start time. -/
def LogFile.Start (l : LogFile) (command : ByteSeq) :
    LogFile × Option String :=
  if l.done then (l, some "start after finish")
  else if l.started then (l, some "already started")
  else ({ l with command := command, started := true }, none)

/-- beUint32 reads a big-endian 32-bit unsigned integer from four
bytes, as binary.BigEndian.Uint32 does. -/
def beUint32 : ByteSeq → Nat
  | a :: b :: c :: d :: _ => ((a * 256 + b) * 256 + c) * 256 + d
  | _ => 0

/-- PTYParseResult is the outcome of ParsePTYPayload: success, an
error return, or a Go runtime panic from an out-of-range slice
expression. -/
inductive PTYParseResult where
  | ok
  | err (msg : String)
  | goPanic
  deriving Repr, DecidableEq

/-- ParsePTYPayload embeds LogFile.ParsePTYPayload of cast.go,
following the source statement by statement.  The source guards the
width and height reads with the comparison 0 greater than len(r),
which is never true, so when fewer than eight bytes remain after the
TERM string the slice expressions r[:4] and r[4:8] are out of range
and Go panics; the model surfaces this as goPanic. -/
def LogFile.ParsePTYPayload (l : LogFile) (r : ByteSeq) :
    LogFile × PTYParseResult :=
  if l.term ≠ [] then (l, .err "pty already set")
  else if 4 > r.length then (l, .err "too short for TERM length")
  else
    let tlen := beUint32 (r.take 4)
    let r1 := r.drop 4
    if tlen > r1.length then (l, .err "too short for TERM variable")
    else
      let l1 := { l with term := r1.take tlen }
      let r2 := r1.drop tlen
      if 0 > r2.length then (l1, .err "too short for terminal size")
      else if r2.length < 4 then (l1, .goPanic)
      else if r2.length < 8 then (l1, .goPanic)
      else ({ l1 with width := beUint32 (r2.take 4),
                      height := beUint32 ((r2.drop 4).take 4) }, .ok)

/-- C5: evaluation of ParsePTYPayload at the failing input.  A payload
that is too short to hold the declared TERM string does return an
error, but a payload whose TERM string fits while fewer than eight
bytes remain for the width and height fields makes the source panic
with an out-of-range slice instead of returning the (unreachable)
too-short-for-terminal-size error, contradicting the claim that no
protocol input causes a panic. -/
theorem c5_pty_payload_panic :
    ((initLogFile "f" "t" 100).ParsePTYPayload []).2
      = .err "too short for TERM length" ∧
    ((initLogFile "f" "t" 100).ParsePTYPayload [0, 0, 0, 5]).2
      = .err "too short for TERM variable" ∧
    ((initLogFile "f" "t" 100).ParsePTYPayload [0, 0, 0, 0]).2
      = .goPanic ∧
    ((initLogFile "f" "t" 100).ParsePTYPayload
        [0, 0, 0, 4, 120, 116, 101, 114, 109, 0, 0]).2
      = .goPanic := by
  refine ⟨?_, ?_, ?_, ?_⟩ <;> decide

/-- RecOp is one operation the proxy performs on a channel recorder:
Start, ParsePTYPayload, a data write through a DirectionWriter, or
Close. -/
inductive RecOp where
  | start (command : ByteSeq)
  | parsePTY (payload : ByteSeq)
  | write (b : ByteSeq) (d : String) (env : WriteEnv)
  | close
  deriving Repr

/-- writeReachedStage is true when a WriteShell call reaches the
file-writing stage: the recorder is started and not done, and the file
is already open or is successfully opened during the call. -/
def writeReachedStage (l : LogFile) (env : WriteEnv) : Bool :=
  !l.done && l.started &&
    (l.fOpen || (decide (l.fname ≠ "") && env.mkdirOk && env.createOk))

/-- RecTrace is the accumulated state of a recorder run: the recorder,
the lines written to the asciicast file so far, and whether any event
write reached the file-writing stage. -/
structure RecTrace where
  lf : LogFile
  file : List FileLine
  reached : Bool
  deriving Repr, DecidableEq

/-- recStep applies one recorder operation to a trace. -/
def recStep (t : RecTrace) : RecOp → RecTrace
  | .start c => { t with lf := (t.lf.Start c).1 }
  | .parsePTY p => { t with lf := (t.lf.ParsePTYPayload p).1 }
  | .write b d env =>
    let r := t.lf.WriteShell b d env
    { lf := r.lf, file := t.file ++ r.file,
      reached := t.reached || writeReachedStage t.lf env }
  | .close => { t with lf := t.lf.CloseOp }

/-- recRun runs a sequence of recorder operations from a freshly
constructed recorder. -/
def recRun (init : LogFile) (ops : List RecOp) : RecTrace :=
  ops.foldl recStep { lf := init, file := [], reached := false }

/-- eventBytes sums the marshalled JSON lengths of the event lines in
a file; the header line is not counted, matching the log-max flag
documentation (maximum log size not including the header). -/
def eventBytes : List FileLine → Nat
  | [] => 0
  | FileLine.headerLine :: rest => eventBytes rest
  | FileLine.eventLine n :: rest => n + eventBytes rest

/-- C3: evaluation of the recorder at the failing input.  With a cap
of 30 bytes, two event writes whose marshalled JSON is 20 bytes each
are both written, for a total of 40 event bytes, because the byte
counter nw of the source is never incremented and every event is
checked against the full budget; the claim that the total never
exceeds max and that the second event is dropped fails. -/
theorem c3_cap_total_exceeded :
    (recRun (initLogFile "f" "t" 30)
        [RecOp.start [],
         RecOp.write [97] "o" ⟨true, true, true, true, 20⟩,
         RecOp.write [97] "o" ⟨true, true, true, true, 20⟩]).file
      = [FileLine.headerLine, FileLine.eventLine 20, FileLine.eventLine 20]
    ∧ eventBytes
        (recRun (initLogFile "f" "t" 30)
          [RecOp.start [],
           RecOp.write [97] "o" ⟨true, true, true, true, 20⟩,
           RecOp.write [97] "o" ⟨true, true, true, true, 20⟩]).file
      = 40 := by
  refine ⟨?_, ?_⟩ <;> decide

/-- headerCount counts the header lines in a file. -/
def headerCount : List FileLine → Nat
  | [] => 0
  | FileLine.headerLine :: rest => 1 + headerCount rest
  | FileLine.eventLine _ :: rest => headerCount rest

theorem headerCount_append (a b : List FileLine) :
    headerCount (a ++ b) = headerCount a + headerCount b := by
  induction a with
  | nil => simp [headerCount]
  | cons x rest ih => cases x <;> simp [headerCount, ih] <;> omega

/-- headerWritesOk is true when every write operation of a trace has a
succeeding header-write outcome in its environment. -/
def headerWritesOk : List RecOp → Bool
  | [] => true
  | RecOp.write _ _ env :: rest => env.headerWriteOk && headerWritesOk rest
  | _ :: rest => headerWritesOk rest

/-- recInv is the reachable-state invariant of a recorder trace: when
the header flag is set the file is a single header line followed only
by event lines and some write reached the file-writing stage; when it
is not set the file is empty; and an open file without a header means
the recorder is done (the header write failed). -/
def recInv (t : RecTrace) : Prop :=
  (t.lf.header = true →
    (∃ rest, t.file = FileLine.headerLine :: rest ∧ headerCount rest = 0) ∧
      t.reached = true) ∧
  (t.lf.header = false → t.file = []) ∧
  (t.lf.fOpen = true → t.lf.header = false → t.lf.done = true)

theorem ws_done (l : LogFile) (b : ByteSeq) (d : String) (env : WriteEnv)
    (hd : l.done = true) :
    l.WriteShell b d env = ⟨l, [], b.length, none, false⟩ := by
  unfold LogFile.WriteShell
  simp [hd]

theorem ws_notStarted (l : LogFile) (b : ByteSeq) (d : String)
    (env : WriteEnv) (hd : l.done = false) (hs : l.started = false) :
    l.WriteShell b d env = ⟨l, [], b.length, none, false⟩ := by
  unfold LogFile.WriteShell
  simp [hd, hs]

theorem ws_noFname (l : LogFile) (b : ByteSeq) (d : String) (env : WriteEnv)
    (hd : l.done = false) (hs : l.started = true) (hfo : l.fOpen = false)
    (hfn : l.fname = "") :
    l.WriteShell b d env = ⟨l, [], 0, none, true⟩ := by
  unfold LogFile.WriteShell
  simp [hd, hs, hfo, hfn]

theorem ws_mkdirFail (l : LogFile) (b : ByteSeq) (d : String)
    (env : WriteEnv) (hd : l.done = false) (hs : l.started = true)
    (hfo : l.fOpen = false) (hfn : ¬l.fname = "")
    (hm : env.mkdirOk = false) :
    l.WriteShell b d env
      = ⟨{ l with done := true }, [], 0, some "mkdir failed", false⟩ := by
  unfold LogFile.WriteShell
  simp [hd, hs, hfo, hfn, hm]

theorem ws_createFail (l : LogFile) (b : ByteSeq) (d : String)
    (env : WriteEnv) (hd : l.done = false) (hs : l.started = true)
    (hfo : l.fOpen = false) (hfn : ¬l.fname = "")
    (hm : env.mkdirOk = true) (hc : env.createOk = false) :
    l.WriteShell b d env
      = ⟨{ l with done := true }, [], 0, some "create failed", false⟩ := by
  unfold LogFile.WriteShell
  simp [hd, hs, hfo, hfn, hm, hc]

theorem ws_headerFail (l : LogFile) (b : ByteSeq) (d : String)
    (env : WriteEnv) (hd : l.done = false) (hs : l.started = true)
    (hopen : l.fOpen = true ∨
      (¬l.fname = "" ∧ env.mkdirOk = true ∧ env.createOk = true))
    (hH : l.header = false) (hw : env.headerWriteOk = false) :
    l.WriteShell b d env = ⟨{ l with fOpen := true, done := true }, [], 0,
      some "header write failed", false⟩ := by
  unfold LogFile.WriteShell
  rcases hopen with hfo | ⟨hfn, hm, hc⟩
  · simp [hd, hs, hfo, hH, hw]
  · simp [hd, hs, hfn, hm, hc, hH, hw]

theorem ws_dirPanic (l : LogFile) (b : ByteSeq) (d : String)
    (env : WriteEnv) (hd : l.done = false) (hs : l.started = true)
    (hopen : l.fOpen = true ∨
      (¬l.fname = "" ∧ env.mkdirOk = true ∧ env.createOk = true))
    (hhdr : ¬(l.header = false ∧ env.headerWriteOk = false))
    (hdir : ¬d = "i" ∧ ¬d = "o") :
    l.WriteShell b d env = ⟨{ l with fOpen := true, header := true },
      if l.header = true then [] else [FileLine.headerLine], 0, none,
      true⟩ := by
  unfold LogFile.WriteShell
  rcases hopen with hfo | ⟨hfn, hm, hc⟩
  · simp [hd, hs, hfo, hhdr, hdir]
  · simp [hd, hs, hfn, hm, hc, hhdr, hdir]

theorem ws_cap (l : LogFile) (b : ByteSeq) (d : String) (env : WriteEnv)
    (hd : l.done = false) (hs : l.started = true)
    (hopen : l.fOpen = true ∨
      (¬l.fname = "" ∧ env.mkdirOk = true ∧ env.createOk = true))
    (hhdr : ¬(l.header = false ∧ env.headerWriteOk = false))
    (hdir : ¬(¬d = "i" ∧ ¬d = "o"))
    (hcap : env.jsonLen > goUintSub l.max l.nw) :
    l.WriteShell b d env
      = ⟨{ l with fOpen := true, header := true, done := true },
        if l.header = true then [] else [FileLine.headerLine], b.length,
        none, false⟩ := by
  unfold LogFile.WriteShell
  rcases hopen with hfo | ⟨hfn, hm, hc⟩
  · simp [hd, hs, hfo, hhdr, hdir, hcap]
  · simp [hd, hs, hfn, hm, hc, hhdr, hdir, hcap]

theorem ws_evFail (l : LogFile) (b : ByteSeq) (d : String) (env : WriteEnv)
    (hd : l.done = false) (hs : l.started = true)
    (hopen : l.fOpen = true ∨
      (¬l.fname = "" ∧ env.mkdirOk = true ∧ env.createOk = true))
    (hhdr : ¬(l.header = false ∧ env.headerWriteOk = false))
    (hdir : ¬(¬d = "i" ∧ ¬d = "o"))
    (hcap : ¬env.jsonLen > goUintSub l.max l.nw)
    (hev : env.eventWriteOk = false) :
    l.WriteShell b d env
      = ⟨{ l with fOpen := true, header := true, done := true },
        if l.header = true then [] else [FileLine.headerLine], 0,
        some "event write failed", false⟩ := by
  unfold LogFile.WriteShell
  rcases hopen with hfo | ⟨hfn, hm, hc⟩
  · simp [hd, hs, hfo, hhdr, hdir, hcap, hev]
  · simp [hd, hs, hfn, hm, hc, hhdr, hdir, hcap, hev]

theorem ws_success (l : LogFile) (b : ByteSeq) (d : String) (env : WriteEnv)
    (hd : l.done = false) (hs : l.started = true)
    (hopen : l.fOpen = true ∨
      (¬l.fname = "" ∧ env.mkdirOk = true ∧ env.createOk = true))
    (hhdr : ¬(l.header = false ∧ env.headerWriteOk = false))
    (hdir : ¬(¬d = "i" ∧ ¬d = "o"))
    (hcap : ¬env.jsonLen > goUintSub l.max l.nw)
    (hev : env.eventWriteOk = true) :
    l.WriteShell b d env = ⟨{ l with fOpen := true, header := true },
      (if l.header = true then [] else [FileLine.headerLine])
        ++ [FileLine.eventLine env.jsonLen], b.length, none, false⟩ := by
  unfold LogFile.WriteShell
  rcases hopen with hfo | ⟨hfn, hm, hc⟩
  · simp [hd, hs, hfo, hhdr, hdir, hcap, hev]
  · simp [hd, hs, hfn, hm, hc, hhdr, hdir, hcap, hev]

theorem stage_of_open (l : LogFile) (env : WriteEnv) (hd : l.done = false)
    (hs : l.started = true)
    (hopen : l.fOpen = true ∨
      (¬l.fname = "" ∧ env.mkdirOk = true ∧ env.createOk = true)) :
    writeReachedStage l env = true := by
  unfold writeReachedStage
  rcases hopen with hfo | ⟨hfn, hm, hc⟩
  · simp [hd, hs, hfo]
  · simp [hd, hs, hfn, hm, hc]

theorem writeShell_shape_main (l : LogFile) (b : ByteSeq) (d : String)
    (env : WriteEnv) (hd : l.done = false) (hs : l.started = true)
    (hopen : l.fOpen = true ∨
      (¬l.fname = "" ∧ env.mkdirOk = true ∧ env.createOk = true)) :
    ((l.WriteShell b d env).lf = l ∧ (l.WriteShell b d env).file = [] ∧
      writeReachedStage l env = false) ∨
    ((l.WriteShell b d env).lf = { l with done := true } ∧
      (l.WriteShell b d env).file = [] ∧
      writeReachedStage l env = false) ∨
    ((l.WriteShell b d env).lf = { l with fOpen := true, done := true } ∧
      (l.WriteShell b d env).file = [] ∧ l.header = false ∧
      env.headerWriteOk = false) ∨
    (l.header = true ∧ writeReachedStage l env = true ∧
      (l.WriteShell b d env).lf.header = true ∧
      ((l.WriteShell b d env).file = [] ∨
        (l.WriteShell b d env).file = [FileLine.eventLine env.jsonLen])) ∨
    (l.header = false ∧ writeReachedStage l env = true ∧
      (l.WriteShell b d env).lf.header = true ∧
      ((l.WriteShell b d env).file = [FileLine.headerLine] ∨
        (l.WriteShell b d env).file =
          [FileLine.headerLine, FileLine.eventLine env.jsonLen])) := by
  have hstage := stage_of_open l env hd hs hopen
  by_cases hHF : l.header = false ∧ env.headerWriteOk = false
  · refine Or.inr (Or.inr (Or.inl ?_))
    rw [ws_headerFail l b d env hd hs hopen hHF.1 hHF.2]
    exact ⟨rfl, rfl, hHF.1, hHF.2⟩
  cases hH : l.header with
  | true =>
    refine Or.inr (Or.inr (Or.inr (Or.inl ⟨rfl, hstage, ?_, ?_⟩)))
    all_goals by_cases hdir : ¬d = "i" ∧ ¬d = "o"
    · rw [ws_dirPanic l b d env hd hs hopen hHF hdir]
    · by_cases hcap : env.jsonLen > goUintSub l.max l.nw
      · rw [ws_cap l b d env hd hs hopen hHF hdir hcap]
      · by_cases hev : env.eventWriteOk = false
        · rw [ws_evFail l b d env hd hs hopen hHF hdir hcap hev]
        · rw [ws_success l b d env hd hs hopen hHF hdir hcap
            (by simpa using hev)]
    · rw [ws_dirPanic l b d env hd hs hopen hHF hdir]
      exact Or.inl (by simp [hH])
    · by_cases hcap : env.jsonLen > goUintSub l.max l.nw
      · rw [ws_cap l b d env hd hs hopen hHF hdir hcap]
        exact Or.inl (by simp [hH])
      · by_cases hev : env.eventWriteOk = false
        · rw [ws_evFail l b d env hd hs hopen hHF hdir hcap hev]
          exact Or.inl (by simp [hH])
        · rw [ws_success l b d env hd hs hopen hHF hdir hcap
            (by simpa using hev)]
          exact Or.inr (by simp [hH])
  | false =>
    refine Or.inr (Or.inr (Or.inr (Or.inr ⟨rfl, hstage, ?_, ?_⟩)))
    all_goals by_cases hdir : ¬d = "i" ∧ ¬d = "o"
    · rw [ws_dirPanic l b d env hd hs hopen hHF hdir]
    · by_cases hcap : env.jsonLen > goUintSub l.max l.nw
      · rw [ws_cap l b d env hd hs hopen hHF hdir hcap]
      · by_cases hev : env.eventWriteOk = false
        · rw [ws_evFail l b d env hd hs hopen hHF hdir hcap hev]
        · rw [ws_success l b d env hd hs hopen hHF hdir hcap
            (by simpa using hev)]
    · rw [ws_dirPanic l b d env hd hs hopen hHF hdir]
      exact Or.inl (by simp [hH])
    · by_cases hcap : env.jsonLen > goUintSub l.max l.nw
      · rw [ws_cap l b d env hd hs hopen hHF hdir hcap]
        exact Or.inl (by simp [hH])
      · by_cases hev : env.eventWriteOk = false
        · rw [ws_evFail l b d env hd hs hopen hHF hdir hcap hev]
          exact Or.inl (by simp [hH])
        · rw [ws_success l b d env hd hs hopen hHF hdir hcap
            (by simpa using hev)]
          exact Or.inr (by simp [hH])

theorem writeShell_shape (l : LogFile) (b : ByteSeq) (d : String)
    (env : WriteEnv) :
    ((l.WriteShell b d env).lf = l ∧ (l.WriteShell b d env).file = [] ∧
      writeReachedStage l env = false) ∨
    ((l.WriteShell b d env).lf = { l with done := true } ∧
      (l.WriteShell b d env).file = [] ∧
      writeReachedStage l env = false) ∨
    ((l.WriteShell b d env).lf = { l with fOpen := true, done := true } ∧
      (l.WriteShell b d env).file = [] ∧ l.header = false ∧
      env.headerWriteOk = false) ∨
    (l.header = true ∧ writeReachedStage l env = true ∧
      (l.WriteShell b d env).lf.header = true ∧
      ((l.WriteShell b d env).file = [] ∨
        (l.WriteShell b d env).file = [FileLine.eventLine env.jsonLen])) ∨
    (l.header = false ∧ writeReachedStage l env = true ∧
      (l.WriteShell b d env).lf.header = true ∧
      ((l.WriteShell b d env).file = [FileLine.headerLine] ∨
        (l.WriteShell b d env).file =
          [FileLine.headerLine, FileLine.eventLine env.jsonLen])) := by
  by_cases hd : l.done = true
  · refine Or.inl ?_
    rw [ws_done l b d env hd]
    refine ⟨rfl, rfl, ?_⟩
    unfold writeReachedStage
    simp [hd]
  replace hd : l.done = false := by simpa using hd
  by_cases hs : l.started = false
  · refine Or.inl ?_
    rw [ws_notStarted l b d env hd hs]
    refine ⟨rfl, rfl, ?_⟩
    unfold writeReachedStage
    simp [hs]
  replace hs : l.started = true := by simpa using hs
  by_cases hfo : l.fOpen = false
  · by_cases hfn : l.fname = ""
    · refine Or.inl ?_
      rw [ws_noFname l b d env hd hs hfo hfn]
      refine ⟨rfl, rfl, ?_⟩
      unfold writeReachedStage
      simp [hfo, hfn]
    by_cases hm : env.mkdirOk = false
    · refine Or.inr (Or.inl ?_)
      rw [ws_mkdirFail l b d env hd hs hfo hfn hm]
      refine ⟨rfl, rfl, ?_⟩
      unfold writeReachedStage
      simp [hfo, hm]
    replace hm : env.mkdirOk = true := by simpa using hm
    by_cases hc : env.createOk = false
    · refine Or.inr (Or.inl ?_)
      rw [ws_createFail l b d env hd hs hfo hfn hm hc]
      refine ⟨rfl, rfl, ?_⟩
      unfold writeReachedStage
      simp [hfo, hc]
    replace hc : env.createOk = true := by simpa using hc
    exact writeShell_shape_main l b d env hd hs (Or.inr ⟨hfn, hm, hc⟩)
  · replace hfo : l.fOpen = true := by simpa using hfo
    exact writeShell_shape_main l b d env hd hs (Or.inl hfo)

theorem recStep_preserves_inv (t : RecTrace) (op : RecOp) (h : recInv t) :
    recInv (recStep t op) := by
  obtain ⟨l, file, reached⟩ := t
  obtain ⟨h1, h2, h3⟩ := h
  replace h1 : l.header = true →
      (∃ rest, file = FileLine.headerLine :: rest ∧ headerCount rest = 0) ∧
        reached = true := h1
  replace h2 : l.header = false → file = [] := h2
  replace h3 : l.fOpen = true → l.header = false → l.done = true := h3
  cases op with
  | start c =>
    simp only [recStep, LogFile.Start]
    split_ifs <;> exact ⟨h1, h2, h3⟩
  | parsePTY p =>
    simp only [recStep, LogFile.ParsePTYPayload]
    split_ifs <;> exact ⟨h1, h2, h3⟩
  | close =>
    simp only [recStep, LogFile.CloseOp]
    split_ifs
    · exact ⟨h1, h2, h3⟩
    · exact ⟨h1, h2, fun _ _ => rfl⟩
  | write b d env =>
    simp only [recStep]
    rcases writeShell_shape l b d env with ⟨he, hfl, hstg⟩ |
      ⟨he, hfl, hstg⟩ | ⟨he, hfl, hhd, hwok⟩ | ⟨hhd, hst, hhd2, hfl⟩ |
      ⟨hhd, hst, hhd2, hfl⟩
    · rw [he, hfl, List.append_nil]
      exact ⟨fun hh => ⟨(h1 hh).1, by simp [(h1 hh).2]⟩, h2, h3⟩
    · rw [he, hfl, List.append_nil]
      exact ⟨fun hh => ⟨(h1 hh).1, by simp [(h1 hh).2]⟩, h2, fun _ _ => rfl⟩
    · rw [he, hfl, List.append_nil]
      exact ⟨fun hcontra => absurd hcontra (by simp [hhd]),
        fun _ => h2 hhd, fun _ _ => rfl⟩
    · obtain ⟨⟨rest, hfile, hcount⟩, hreach⟩ := h1 hhd
      subst hfile
      rcases hfl with hfl | hfl <;> rw [hfl] <;>
        refine ⟨fun _ => ⟨?_, by simp [hreach]⟩,
          fun hx => by rw [hhd2] at hx; exact Bool.noConfusion hx,
          fun hx hy => by rw [hhd2] at hy; exact Bool.noConfusion hy⟩
      · exact ⟨rest, by simp, hcount⟩
      · exact ⟨rest ++ [FileLine.eventLine env.jsonLen], by simp,
          by simp [headerCount_append, headerCount, hcount]⟩
    · have hfe : file = [] := h2 hhd
      subst hfe
      rcases hfl with hfl | hfl <;> rw [hfl] <;>
        refine ⟨fun _ => ⟨?_, by simp [hst]⟩,
          fun hx => by rw [hhd2] at hx; exact Bool.noConfusion hx,
          fun hx hy => by rw [hhd2] at hy; exact Bool.noConfusion hy⟩
      · exact ⟨[], by simp, rfl⟩
      · exact ⟨[FileLine.eventLine env.jsonLen], by simp, rfl⟩

theorem foldl_recInv (ops : List RecOp) (t : RecTrace) (h : recInv t) :
    recInv (ops.foldl recStep t) := by
  induction ops generalizing t with
  | nil => exact h
  | cons op rest ih => exact ih _ (recStep_preserves_inv t op h)

theorem recStep_keeps_reached_header (t : RecTrace) (op : RecOp)
    (hok : ∀ b d env, op = RecOp.write b d env → env.headerWriteOk = true)
    (hJ : t.reached = true → t.lf.header = true) :
    (recStep t op).reached = true → (recStep t op).lf.header = true := by
  obtain ⟨l, file, reached⟩ := t
  replace hJ : reached = true → l.header = true := hJ
  cases op with
  | start c =>
    simp only [recStep, LogFile.Start]
    split_ifs <;> exact hJ
  | parsePTY p =>
    simp only [recStep, LogFile.ParsePTYPayload]
    split_ifs <;> exact hJ
  | close =>
    simp only [recStep, LogFile.CloseOp]
    split_ifs <;> exact hJ
  | write b d env =>
    have hw := hok b d env rfl
    simp only [recStep]
    rcases writeShell_shape l b d env with ⟨he, _, hstg⟩ | ⟨he, _, hstg⟩ |
      ⟨_, _, _, hwf⟩ | ⟨_, _, hhd2, _⟩ | ⟨_, _, hhd2, _⟩
    · rw [he, hstg]
      intro hr
      simp only [Bool.or_false] at hr
      exact hJ hr
    · rw [he, hstg]
      intro hr
      simp only [Bool.or_false] at hr
      exact hJ hr
    · rw [hw] at hwf
      exact Bool.noConfusion hwf
    · intro _
      exact hhd2
    · intro _
      exact hhd2

theorem foldl_reached_header (ops : List RecOp) (t : RecTrace)
    (hok : headerWritesOk ops = true)
    (hJ : t.reached = true → t.lf.header = true) :
    (ops.foldl recStep t).reached = true →
      (ops.foldl recStep t).lf.header = true := by
  induction ops generalizing t with
  | nil => exact hJ
  | cons op rest ih =>
    have hok2 : headerWritesOk rest = true := by
      cases op <;> simp_all [headerWritesOk]
    have hop : ∀ b d env, op = RecOp.write b d env →
        env.headerWriteOk = true := by
      intro b d env hEq
      subst hEq
      simp_all [headerWritesOk]
    exact ih _ hok2 (recStep_keeps_reached_header t op hop hJ)

/-- C7 (amended): over any sequence of recorder operations from a fresh
recorder, the header line is written at most once and, when present, it
is the first line of the file, before every event line; a header is
written only if some event write reached the file-writing stage; and
when the header file writes themselves succeed, the header is written
exactly once as soon as some event write reaches that stage.  (The
original claim is amended because a failing header write reaches the
stage yet leaves the file without a header.) -/
theorem c7_header_exactly_once (fname tag : String) (max : Nat)
    (ops : List RecOp) :
    (headerCount (recRun (initLogFile fname tag max) ops).file ≤ 1) ∧
    ((recRun (initLogFile fname tag max) ops).file = [] ∨
      ∃ rest, (recRun (initLogFile fname tag max) ops).file
          = FileLine.headerLine :: rest ∧ headerCount rest = 0) ∧
    (headerCount (recRun (initLogFile fname tag max) ops).file = 1 →
      (recRun (initLogFile fname tag max) ops).reached = true) ∧
    (headerWritesOk ops = true →
      (recRun (initLogFile fname tag max) ops).reached = true →
      headerCount (recRun (initLogFile fname tag max) ops).file = 1) := by
  have hbase : recInv ⟨initLogFile fname tag max, [], false⟩ :=
    ⟨fun h => Bool.noConfusion h, fun _ => rfl, fun h => Bool.noConfusion h⟩
  have hinv : recInv (recRun (initLogFile fname tag max) ops) :=
    foldl_recInv ops _ hbase
  obtain ⟨h1, h2, h3⟩ := hinv
  by_cases hH : (recRun (initLogFile fname tag max) ops).lf.header = true
  · obtain ⟨⟨rest, hfile, hcount⟩, hreach⟩ := h1 hH
    refine ⟨?_, Or.inr ⟨rest, hfile, hcount⟩, fun _ => hreach,
      fun _ _ => ?_⟩
    · rw [hfile]
      simp [headerCount, hcount]
    · rw [hfile]
      simp [headerCount, hcount]
  · replace hH : (recRun (initLogFile fname tag max) ops).lf.header
        = false := by simpa using hH
    have hfe := h2 hH
    refine ⟨?_, Or.inl hfe, ?_, ?_⟩
    · rw [hfe]
      simp [headerCount]
    · intro hc1
      rw [hfe] at hc1
      simp [headerCount] at hc1
    · intro hok hr
      have hcontra : (recRun (initLogFile fname tag max) ops).lf.header
          = true :=
        foldl_reached_header ops
          ⟨initLogFile fname tag max, [], false⟩ hok
          (fun h => Bool.noConfusion h) hr
      exact absurd hcontra (by simp [hH])

/-- C7 counterexample: a started recorder whose first write opens the
file successfully but whose header write fails has a write that reached
the file-writing stage (started, not done, file opened) while no header
line was ever written, refuting the claimed if-and-only-if. -/
theorem c7_counterexample :
    (recRun (initLogFile "f" "t" 100)
        [RecOp.start [],
         RecOp.write [104] "o" ⟨true, true, false, true, 5⟩]).reached
      = true ∧
    headerCount (recRun (initLogFile "f" "t" 100)
        [RecOp.start [],
         RecOp.write [104] "o" ⟨true, true, false, true, 5⟩]).file
      = 0 := by
  refine ⟨?_, ?_⟩ <;> decide

/-- Witness for C7 at a concrete trace whose header write succeeds. -/
theorem c7_header_exactly_once_witness :
    headerCount (recRun (initLogFile "f" "t" 100)
        [RecOp.start [],
         RecOp.write [104] "o" ⟨true, true, true, true, 5⟩]).file = 1 :=
  (c7_header_exactly_once "f" "t" 100
      [RecOp.start [],
       RecOp.write [104] "o" ⟨true, true, true, true, 5⟩]).2.2.2
    (by decide) (by decide)

/-- MWResult is the outcome of one write through the io.MultiWriter
that proxyChannel builds from the recorder DirectionWriter and the
destination channel: the updated recorder, the lines it appended, a
flag telling whether the bytes were written to the destination channel,
the error of the whole MultiWriter write, and whether readCase stops
the stream (it sets its channel to nil whenever the write errors). -/
structure MWResult where
  lf : LogFile
  file : List FileLine
  deliveredToPeer : Bool
  err : Option String
  streamStopped : Bool
  deriving Repr, DecidableEq

/-- proxyDataWrite embeds the data path of proxyChannel and readCase of
channel.go: the MultiWriter writes to the recorder first and to the
destination channel second, stopping at the first error or short
write, and readCase kills the stream when the combined write errors.
The peerOk flag is the environment outcome of the destination channel
write. -/
def proxyDataWrite (l : LogFile) (b : ByteSeq) (dir : String)
    (env : WriteEnv) (peerOk : Bool) : MWResult :=
  let r := l.WriteShell b dir env
  match r.err with
  | some e => ⟨r.lf, r.file, false, some e, true⟩
  | none =>
    if r.n ≠ b.length then
      ⟨r.lf, r.file, false, some "short write", true⟩
    else if peerOk then ⟨r.lf, r.file, true, none, false⟩
    else ⟨r.lf, r.file, true, some "peer write error", true⟩

/-- C2 counterexample: when the recorder file cannot be created, the
first write returns an error, the MultiWriter aborts before the
destination channel, the bytes are not delivered, and the stream is
stopped — refuting the claim that a recorder failure never prevents
delivery. -/
theorem c2_counterexample :
    (proxyDataWrite { initLogFile "f" "t" 100 with started := true }
        [104] "o" ⟨true, false, true, true, 5⟩ true).deliveredToPeer
      = false ∧
    (proxyDataWrite { initLogFile "f" "t" 100 with started := true }
        [104] "o" ⟨true, false, true, true, 5⟩ true).streamStopped
      = true := by
  refine ⟨?_, ?_⟩ <;> decide

/-- C2 (amended): writes on a recorder that is done, not yet started,
or whose cap would be exceeded report success to the MultiWriter, so the
bytes still reach the destination channel; but any write on which the
recorder itself fails (directory creation, file creation, header write
or event write) returns an error, the MultiWriter aborts before the
destination channel, and the direction stream is stopped.  (The original
claim is amended because only the cap and the done or not-started states
report success; the first open, header-write or event-write failure does
fail the proxying write.) -/
theorem c2_recorder_write_failures (l : LogFile) (b : ByteSeq)
    (dir : String) (env : WriteEnv) (peerOk : Bool) :
    (l.done = true →
      (proxyDataWrite l b dir env peerOk).deliveredToPeer = true) ∧
    (l.done = false → l.started = false →
      (proxyDataWrite l b dir env peerOk).deliveredToPeer = true) ∧
    (l.done = false → l.started = true →
      (l.fOpen = true ∨
        (¬l.fname = "" ∧ env.mkdirOk = true ∧ env.createOk = true)) →
      ¬(l.header = false ∧ env.headerWriteOk = false) →
      ¬(¬dir = "i" ∧ ¬dir = "o") →
      env.jsonLen > goUintSub l.max l.nw →
      (proxyDataWrite l b dir env peerOk).deliveredToPeer = true ∧
        (proxyDataWrite l b dir env peerOk).lf.done = true) ∧
    (∀ e, (l.WriteShell b dir env).err = some e →
      (proxyDataWrite l b dir env peerOk).deliveredToPeer = false ∧
        (proxyDataWrite l b dir env peerOk).streamStopped = true) := by
  refine ⟨?_, ?_, ?_, ?_⟩
  · intro hd
    rw [proxyDataWrite, ws_done l b dir env hd]
    cases peerOk <;> simp
  · intro hd hs
    rw [proxyDataWrite, ws_notStarted l b dir env hd hs]
    cases peerOk <;> simp
  · intro hd hs hopen hhdr hdir hcap
    rw [proxyDataWrite, ws_cap l b dir env hd hs hopen hhdr hdir hcap]
    cases peerOk <;> simp
  · intro e he
    rw [proxyDataWrite, he]
    simp

/-- Witness for C2 at a concrete cap-exceeded write. -/
theorem c2_recorder_write_failures_witness :
    (proxyDataWrite { initLogFile "f" "t" 10 with started := true }
        [104] "o" ⟨true, true, true, true, 20⟩ true).deliveredToPeer
      = true ∧
    (proxyDataWrite { initLogFile "f" "t" 10 with started := true }
        [104] "o" ⟨true, true, true, true, 20⟩ true).lf.done = true :=
  (c2_recorder_write_failures
      { initLogFile "f" "t" 10 with started := true } [104] "o"
      ⟨true, true, true, true, 20⟩ true).2.2.1
    rfl rfl (Or.inr ⟨by decide, rfl, rfl⟩) (by decide) (by decide)
    (by decide)

/-- Prohibited is ssh.Prohibited of x/crypto/ssh, the rejection reason
with wire value 1 (administratively prohibited). -/
def Prohibited : Nat := 1

/-- ChannelOpenErr is the error OpenChannel can return: a structured
*ssh.OpenChannelError carrying a reason code and a message, or any
other error carrying only its message. -/
inductive ChannelOpenErr where
  | structured (reason : Nat) (message : String)
  | generic (msg : String)
  deriving Repr, DecidableEq

/-- HandleChannelOutcome records what the channel-open phase of
HandleChannel did: the rejection sent to the incoming channel, if any,
and whether an accepted channel pair was created. -/
structure HandleChannelOutcome where
  rejectionSent : Option (Nat × String)
  pairCreated : Bool
  deriving Repr, DecidableEq

/-- HandleChannel embeds the channel-open phase of HandleChannel of
channel.go: on a structured open-channel error the incoming channel is
rejected with the same reason and message; on any other error the
function only logs and returns, sending no rejection; on success the
incoming channel is accepted (when the accept succeeds) and the pair
proceeds to proxying. -/
def HandleChannel (openRes : Except ChannelOpenErr Unit)
    (acceptOk : Bool) : HandleChannelOutcome :=
  match openRes with
  | .error (.structured r m) => ⟨some (r, m), false⟩
  | .error (.generic _) => ⟨none, false⟩
  | .ok _ => if acceptOk then ⟨none, true⟩ else ⟨none, false⟩

/-- rejectChannel embeds rejectChannel of the older variant in
channel.go: reason and message are taken from the structured error when
there is one, and otherwise the reason is Prohibited with the error
text as message. -/
def rejectChannel (nce : ChannelOpenErr) : Nat × String :=
  match nce with
  | .structured r m => (r, m)
  | .generic msg => (Prohibited, msg)

/-- C4 counterexample: when the counterpart open fails with a
non-structured error, HandleChannel sends no rejection at all, refuting
the claim that the incoming channel is still rejected with a generic
reason. -/
theorem c4_counterexample :
    (HandleChannel (.error (.generic "connection lost")) true).rejectionSent
      = none := by decide

/-- C4 (amended): a structured open-channel failure makes HandleChannel
reject the incoming channel with exactly the counterpart reason code
and message; any other failure makes HandleChannel log and return
without sending a rejection (the older rejectChannel variant instead
rejects with Prohibited and the error text); in both cases no channel
pair is created. -/
theorem c4_open_failure_rejection (openRes : Except ChannelOpenErr Unit)
    (acceptOk : Bool) :
    (∀ r m, openRes = .error (.structured r m) →
      (HandleChannel openRes acceptOk).rejectionSent = some (r, m) ∧
        (HandleChannel openRes acceptOk).pairCreated = false) ∧
    (∀ msg, openRes = .error (.generic msg) →
      (HandleChannel openRes acceptOk).rejectionSent = none ∧
        (HandleChannel openRes acceptOk).pairCreated = false) ∧
    (∀ r m, rejectChannel (.structured r m) = (r, m)) ∧
    (∀ msg, rejectChannel (.generic msg) = (Prohibited, msg)) := by
  refine ⟨?_, ?_, fun _ _ => rfl, fun _ => rfl⟩
  · intro r m h
    subst h
    exact ⟨rfl, rfl⟩
  · intro msg h
    subst h
    exact ⟨rfl, rfl⟩

/-- Witness for C4 at concrete errors. -/
theorem c4_open_failure_rejection_witness :
    (HandleChannel (.error (.structured 2 "x11 disabled")) true).rejectionSent
        = some (2, "x11 disabled") ∧
      (HandleChannel (.error (.structured 2 "x11 disabled"))
        true).pairCreated = false :=
  (c4_open_failure_rejection (.error (.structured 2 "x11 disabled"))
    true).1 2 "x11 disabled" rfl

/-- goQuote renders a string roughly as the Go %q verb does (quotation
marks around the text; escaping of special characters inside the text
is elided by the model). -/
def goQuote (s : String) : String := "\"" ++ s ++ "\""

/-- AuthResult is the outcome of one password-callback invocation: the
decision and the log line the deferred logger printed. -/
structure AuthResult where
  accepted : Bool
  logLine : String
  deriving Repr, DecidableEq

/-- authLogMsg is the deferred log line of the password callback of
MakeServerConfig in config.go, with the misspelling of the source kept
and the failed annotation appended exactly when ok is false. -/
def authLogMsg (tag user pass : String) (ok : Bool) : String :=
  "[" ++ tag ++ "] Authenticaton " ++ goQuote user ++ " / "
    ++ goQuote pass ++ (if ok then "" else " (failed)")

/-- PasswordCallback embeds the PasswordCallback closure built by
MakeServerConfig of config.go: look the user up in the credential map;
if absent, deny; otherwise accept exactly when the password is in the
password set of the user; the deferred logger always runs and uses the
final value of ok. -/
def PasswordCallback (tag : String) (creds : List (String × List String))
    (user pass : String) : AuthResult :=
  match creds.lookup user with
  | none => ⟨false, authLogMsg tag user pass false⟩
  | some pws => ⟨pws.contains pass, authLogMsg tag user pass (pws.contains pass)⟩

/-- C6: authentication succeeds exactly when the user is a key of the
credential map and the password is in the password set of that user;
every attempt produces a log line, carrying the failed annotation
exactly when the attempt is rejected. -/
theorem c6_password_callback (tag user pass : String)
    (creds : List (String × List String)) :
    ((PasswordCallback tag creds user pass).accepted = true ↔
      ∃ pws, creds.lookup user = some pws ∧ pass ∈ pws) ∧
    ((PasswordCallback tag creds user pass).logLine
      = "[" ++ tag ++ "] Authenticaton " ++ goQuote user ++ " / "
          ++ goQuote pass
          ++ (if (PasswordCallback tag creds user pass).accepted then ""
              else " (failed)")) := by
  cases hlk : creds.lookup user with
  | none => simp [PasswordCallback, hlk, authLogMsg]
  | some pws =>
    constructor
    · simp [PasswordCallback, hlk]
    · simp [PasswordCallback, hlk, authLogMsg]

/-- LogRequest embeds LogRequest of request.go: it produces no log line
when the request type is in the silent set m, and otherwise one line
naming the tag, whether the request is global, the type, the want-reply
flag and the payload when nonempty. -/
def LogRequest (tag : String) (req : SSHRequest) (global : Bool)
    (m : List String) : Option String :=
  if m.contains req.reqType then none
  else some ("[" ++ tag ++ "] "
    ++ (if global then "Global request " else "Request ")
    ++ req.reqType ++ " WantReply:" ++ toString req.wantReply
    ++ (if req.payload.length ≠ 0 then " " ++ toString req.payload else ""))

/-- ChanReqEnv carries the environment outcomes of one channel-request
handling step: the result the destination channel produces for the
proxied SendRequest, the outcome of the Reply call back to the
requester, and the outcome of CloseWrite for eow requests. -/
structure ChanReqEnv where
  sendRes : Except String Bool
  replyErr : Option String
  closeWriteOk : Bool

/-- ChanReqResult is the full effect of handleChannelRequest: the
updated recorder, whether CloseWrite was invoked on the destination,
the request forwarded to the destination (none only when the handler
panicked before forwarding), the reply sent back, the LogRequest line,
the other log lines, the done flag returned, the bumped request counter
and whether the pty-req parsing panicked. -/
structure ChanReqResult where
  lf : LogFile
  closedWrite : Bool
  forwarded : Option (String × Bool × ByteSeq)
  reply : Option (Bool × ByteSeq)
  logLine : Option String
  inspLogs : List String
  done : Bool
  nreq : Nat
  panicked : Bool
  deriving Repr, DecidableEq

/-- PTYString embeds LogFile.PTYString of cast.go: it panics (modeled
as none) when the TERM string is empty, and otherwise renders the
terminal type and the width-by-height size. -/
def LogFile.PTYString (l : LogFile) : Option String :=
  if l.term = [] then none
  else some (toString l.term ++ " " ++ toString l.width ++ "x"
    ++ toString l.height)

/-- inspectChannelRequest is the inspection switch of
handleChannelRequest of channel.go: eow closes the write side of the
destination; pty-req parses the payload into the recorder and, on
success, logs the Terminal line whose argument is PTYString — which
panics when the parsed TERM string is empty; shell and exec start the
recorder; the booleans are whether CloseWrite was invoked and whether
the step panicked. -/
def inspectChannelRequest (lf : LogFile) (req : SSHRequest)
    (env : ChanReqEnv) : LogFile × Bool × List String × Bool :=
  if req.reqType = "eow@openssh.com" then
    (lf, true,
      if env.closeWriteOk then []
      else ["Unable to close for writing on eow"], false)
  else if req.reqType = "pty-req" then
    match lf.ParsePTYPayload req.payload with
    | (lf1, .ok) =>
      match lf1.PTYString with
      | none => (lf1, false, [], true)
      | some s => (lf1, false, ["Terminal " ++ s], false)
    | (lf1, .err e) =>
      (lf1, false, ["Unable to parse pty-req payload: " ++ e], false)
    | (lf1, .goPanic) => (lf1, false, [], true)
  else if req.reqType = "shell" then
    match lf.Start [] with
    | (lf1, none) => (lf1, false, [], false)
    | (lf1, some e) =>
      (lf1, false, ["Unable to start shell logging: " ++ e], false)
  else if req.reqType = "exec" then
    match lf.Start req.payload with
    | (lf1, none) => (lf1, false, [], false)
    | (lf1, some e) =>
      (lf1, false, ["Unable to start exec logging: " ++ e], false)
  else (lf, false, [], false)

/-- handleChannelRequestEffects assembles the inspection with the
unconditional ProxyRequest forward and the done flag it produces. -/
def handleChannelRequestEffects (lf : LogFile) (req : SSHRequest)
    (nreq : Nat) (env : ChanReqEnv) : ChanReqResult :=
  match inspectChannelRequest lf req env with
  | (lf1, cw, logs, panicked) =>
    if panicked then
      ⟨lf1, cw, none, none, none, logs, false, nreq + 1, true⟩
    else
      let pr := ProxyRequest (.chan env.sendRes) req env.replyErr
      match pr.error with
      | some e =>
        ⟨lf1, cw, some (req.reqType, req.wantReply, req.payload), pr.reply,
          none, logs ++ ["Unable to proxy request: " ++ e], true,
          nreq + 1, false⟩
      | none =>
        ⟨lf1, cw, some (req.reqType, req.wantReply, req.payload), pr.reply,
          none, logs, false, nreq + 1, false⟩

/-- handleChannelRequest embeds handleChannelRequest of channel.go: it
first calls LogRequest under the silent set, then performs the
inspection and forwarding effects, which do not read the silent set. -/
def handleChannelRequest (tag : String) (lf : LogFile) (req : SSHRequest)
    (nreq : Nat) (silent : List String) (env : ChanReqEnv) :
    ChanReqResult :=
  { handleChannelRequestEffects lf req nreq env with
      logLine := LogRequest (tag ++ "-r" ++ toString nreq) req false
        silent }

theorem effects_lf (lf : LogFile) (req : SSHRequest) (nreq : Nat)
    (env : ChanReqEnv) :
    (handleChannelRequestEffects lf req nreq env).lf
      = (inspectChannelRequest lf req env).1 := by
  rcases hI : inspectChannelRequest lf req env with ⟨lf1, cw, logs, pk⟩
  simp only [handleChannelRequestEffects, hI]
  cases pk
  · cases hpe : (ProxyRequest (.chan env.sendRes) req env.replyErr).error <;>
      simp [hpe]
  · simp

theorem effects_closedWrite (lf : LogFile) (req : SSHRequest) (nreq : Nat)
    (env : ChanReqEnv) :
    (handleChannelRequestEffects lf req nreq env).closedWrite
      = (inspectChannelRequest lf req env).2.1 := by
  rcases hI : inspectChannelRequest lf req env with ⟨lf1, cw, logs, pk⟩
  simp only [handleChannelRequestEffects, hI]
  cases pk
  · cases hpe : (ProxyRequest (.chan env.sendRes) req env.replyErr).error <;>
      simp [hpe]
  · simp

theorem effects_forwarded (lf : LogFile) (req : SSHRequest) (nreq : Nat)
    (env : ChanReqEnv)
    (hp : (handleChannelRequestEffects lf req nreq env).panicked = false) :
    (handleChannelRequestEffects lf req nreq env).forwarded
      = some (req.reqType, req.wantReply, req.payload) := by
  rcases hI : inspectChannelRequest lf req env with ⟨lf1, cw, logs, pk⟩
  simp only [handleChannelRequestEffects, hI] at hp ⊢
  cases pk
  · cases hpe : (ProxyRequest (.chan env.sendRes) req env.replyErr).error <;>
      simp [hpe]
  · simp at hp

theorem inspect_shell (lf : LogFile) (wr : Bool) (pl : ByteSeq)
    (env : ChanReqEnv) :
    (inspectChannelRequest lf ⟨"shell", wr, pl⟩ env).1 = (lf.Start []).1 ∧
      (inspectChannelRequest lf ⟨"shell", wr, pl⟩ env).2.2.2 = false := by
  rcases hst : lf.Start [] with ⟨lf1, e⟩
  cases e <;> simp [inspectChannelRequest, hst]

theorem inspect_exec (lf : LogFile) (wr : Bool) (pl : ByteSeq)
    (env : ChanReqEnv) :
    (inspectChannelRequest lf ⟨"exec", wr, pl⟩ env).1
        = (lf.Start pl).1 ∧
      (inspectChannelRequest lf ⟨"exec", wr, pl⟩ env).2.2.2 = false := by
  rcases hst : lf.Start pl with ⟨lf1, e⟩
  cases e <;> simp [inspectChannelRequest, hst]

/-- C8 (amended): a shell request marks the recorder started with the
empty command, an exec request marks it started with the payload bytes
as the command (both as LogFile.Start does, so on a fresh recorder the
started flag is set and the command stored), an eow request half-closes
the write side of the destination channel, and in every non-panicking
case (inspection errors included) the request is forwarded to the other
side with its type, want-reply flag and payload unchanged; the
panicking cases are the pty-req payloads that blow up in ParsePTYPayload
(too few trailing bytes) or in PTYString (empty TERM string). -/
theorem c8_interactive_requests (tag : String) (lf : LogFile)
    (req : SSHRequest) (nreq : Nat) (silent : List String)
    (env : ChanReqEnv) :
    (req.reqType = "shell" →
      (handleChannelRequest tag lf req nreq silent env).lf
          = (lf.Start []).1 ∧
        (lf.done = false → lf.started = false →
          (handleChannelRequest tag lf req nreq silent env).lf.started
              = true ∧
            (handleChannelRequest tag lf req nreq silent env).lf.command
              = [])) ∧
    (req.reqType = "exec" →
      (handleChannelRequest tag lf req nreq silent env).lf
          = (lf.Start req.payload).1 ∧
        (lf.done = false → lf.started = false →
          (handleChannelRequest tag lf req nreq silent env).lf.started
              = true ∧
            (handleChannelRequest tag lf req nreq silent env).lf.command
              = req.payload)) ∧
    (req.reqType = "eow@openssh.com" →
      (handleChannelRequest tag lf req nreq silent env).closedWrite
        = true) ∧
    ((handleChannelRequest tag lf req nreq silent env).panicked = false →
      (handleChannelRequest tag lf req nreq silent env).forwarded
        = some (req.reqType, req.wantReply, req.payload)) := by
  obtain ⟨rt, wr, pl⟩ := req
  have hlf : (handleChannelRequest tag lf ⟨rt, wr, pl⟩ nreq silent env).lf
      = (inspectChannelRequest lf ⟨rt, wr, pl⟩ env).1 :=
    effects_lf lf ⟨rt, wr, pl⟩ nreq env
  refine ⟨?_, ?_, ?_, ?_⟩
  · rintro rfl
    rw [hlf, (inspect_shell lf wr pl env).1]
    refine ⟨rfl, fun hd hs2 => ?_⟩
    rw [LogFile.Start]
    simp [hd, hs2]
  · rintro rfl
    rw [hlf, (inspect_exec lf wr pl env).1]
    refine ⟨rfl, fun hd hs2 => ?_⟩
    rw [LogFile.Start]
    simp [hd, hs2]
  · rintro rfl
    have hcw : (handleChannelRequest tag lf ⟨"eow@openssh.com", wr, pl⟩
          nreq silent env).closedWrite
        = (inspectChannelRequest lf ⟨"eow@openssh.com", wr, pl⟩ env).2.1 :=
      effects_closedWrite lf ⟨"eow@openssh.com", wr, pl⟩ nreq env
    rw [hcw]
    simp [inspectChannelRequest]
  · intro hp
    exact effects_forwarded lf ⟨rt, wr, pl⟩ nreq env hp

/-- Witness for C8 at a concrete exec request on a fresh recorder. -/
theorem c8_interactive_requests_witness :
    (handleChannelRequest "t" (initLogFile "f" "t" 100)
        ⟨"exec", true, [108, 115]⟩ 0 []
        ⟨Except.ok true, none, true⟩).lf.started = true ∧
      (handleChannelRequest "t" (initLogFile "f" "t" 100)
        ⟨"exec", true, [108, 115]⟩ 0 []
        ⟨Except.ok true, none, true⟩).lf.command = [108, 115] :=
  ((c8_interactive_requests "t" (initLogFile "f" "t" 100)
      ⟨"exec", true, [108, 115]⟩ 0 []
      ⟨Except.ok true, none, true⟩).2.1 rfl).2 rfl rfl

/-- C9: the silent sets change only whether a LogRequest line is
produced; the recorder state, the CloseWrite effect, the forwarded
request, the reply, the done flag, the counter and the panic status are
identical for any two silent sets, and a log line is suppressed exactly
when the request type is in the set. -/
theorem c9_silent_sets_only_logging (tag : String) (lf : LogFile)
    (req : SSHRequest) (nreq : Nat) (s1 s2 : List String)
    (env : ChanReqEnv) :
    ((handleChannelRequest tag lf req nreq s1 env).lf
        = (handleChannelRequest tag lf req nreq s2 env).lf) ∧
    ((handleChannelRequest tag lf req nreq s1 env).closedWrite
        = (handleChannelRequest tag lf req nreq s2 env).closedWrite) ∧
    ((handleChannelRequest tag lf req nreq s1 env).forwarded
        = (handleChannelRequest tag lf req nreq s2 env).forwarded) ∧
    ((handleChannelRequest tag lf req nreq s1 env).reply
        = (handleChannelRequest tag lf req nreq s2 env).reply) ∧
    ((handleChannelRequest tag lf req nreq s1 env).done
        = (handleChannelRequest tag lf req nreq s2 env).done) ∧
    ((handleChannelRequest tag lf req nreq s1 env).nreq
        = (handleChannelRequest tag lf req nreq s2 env).nreq) ∧
    ((handleChannelRequest tag lf req nreq s1 env).panicked
        = (handleChannelRequest tag lf req nreq s2 env).panicked) ∧
    ((handleChannelRequest tag lf req nreq s1 env).inspLogs
        = (handleChannelRequest tag lf req nreq s2 env).inspLogs) ∧
    (∀ s, LogRequest (tag ++ "-r" ++ toString nreq) req false s = none ↔
        s.contains req.reqType = true) ∧
    ((handleChannelRequest tag lf req nreq s1 env).logLine
        = LogRequest (tag ++ "-r" ++ toString nreq) req false s1) := by
  refine ⟨rfl, rfl, rfl, rfl, rfl, rfl, rfl, rfl, ?_, rfl⟩
  intro s
  by_cases h : s.contains req.reqType = true
  · simp [LogRequest, h]
  · simp [LogRequest, h]

/-- splitOnComma embeds strings.Split(l, ",") over character lists. -/
def splitOnComma : List Char → List (List Char)
  | [] => [[]]
  | c :: rest =>
    if c = ',' then [] :: splitOnComma rest
    else
      match splitOnComma rest with
      | [] => [[c]]
      | a :: as => (c :: a) :: as

/-- trimChars embeds strings.TrimSpace: leading and trailing whitespace
characters are removed. -/
def trimChars (cs : List Char) : List Char :=
  ((cs.dropWhile Char.isWhitespace).reverse.dropWhile
    Char.isWhitespace).reverse

/-- parseCommaList embeds parseCommaList of sshhipot.go: split on
commas, trim whitespace around each entry and drop empty entries; the
result is a Go map (a set), modeled by deduplication. -/
def parseCommaList (l : List Char) : List (List Char) :=
  (((splitOnComma l).map trimChars).filter (fun v => v ≠ [])).dedup

/-- splitAtFirstColon finds the first colon of a string, giving the
characters before it and after it. -/
def splitAtFirstColon : List Char → Option (List Char × List Char)
  | [] => none
  | c :: rest =>
    if c = ':' then some ([], rest)
    else
      match splitAtFirstColon rest with
      | none => none
      | some (a, b2) => some (c :: a, b2)

/-- splitN2Colon embeds strings.SplitN(pair, ":", 2): the whole string
when it has no colon, and otherwise the parts before and after the
first colon. -/
def splitN2Colon (s : List Char) : List (List Char) :=
  match splitAtFirstColon s with
  | none => [s]
  | some (a, b2) => [a, b2]

/-- insertCred embeds the body of the parseCreds loop: make sure the
user has a password set and add the password to it. -/
def insertCred (m : List (List Char × List (List Char)))
    (user pass : List Char) : List (List Char × List (List Char)) :=
  match m with
  | [] => [(user, [pass])]
  | (u, ps) :: rest =>
    if u = user then (u, if pass ∈ ps then ps else ps ++ [pass]) :: rest
    else (u, ps) :: insertCred rest user pass

/-- parseCredsLoop runs the parseCreds loop over the comma-separated
entries; a pair that does not split into exactly two parts is fatal
(log.Fatalf in the source), modeled as an error naming the pair. -/
def parseCredsLoop : List (List Char) →
    List (List Char × List (List Char)) →
    Except (List Char) (List (List Char × List (List Char)))
  | [], m => .ok m
  | pair :: rest, m =>
    match splitN2Colon pair with
    | [u, p] => parseCredsLoop rest (insertCred m u p)
    | _ => .error pair

/-- parseCreds embeds parseCreds of sshhipot.go. -/
def parseCreds (l : List Char) :
    Except (List Char) (List (List Char × List (List Char))) :=
  parseCredsLoop (parseCommaList l) []

theorem splitAtFirstColon_some (cs : List Char) :
    ∀ a b2, splitAtFirstColon cs = some (a, b2) →
      (':' : Char) ∉ a ∧ cs = a ++ ':' :: b2 := by
  induction cs with
  | nil => intro a b2 h; exact Option.noConfusion h
  | cons c rest ih =>
    intro a b2 h
    unfold splitAtFirstColon at h
    by_cases hc : c = ':'
    · rw [if_pos hc] at h
      obtain ⟨rfl, rfl⟩ : a = [] ∧ b2 = rest := by
        cases h
        exact ⟨rfl, rfl⟩
      simp [hc]
    · rw [if_neg hc] at h
      rcases hsp : splitAtFirstColon rest with _ | ⟨a1, b1⟩
      · rw [hsp] at h
        exact Option.noConfusion h
      · rw [hsp] at h
        obtain ⟨rfl, rfl⟩ : a = c :: a1 ∧ b2 = b1 := by
          cases h
          exact ⟨rfl, rfl⟩
        obtain ⟨hna, hrest⟩ := ih _ _ hsp
        constructor
        · intro hmem
          rcases List.mem_cons.mp hmem with h1 | h1
          · exact hc h1.symm
          · exact hna h1
        · rw [List.cons_append, ← hrest]

theorem splitAtFirstColon_none (cs : List Char)
    (h : (':' : Char) ∉ cs) : splitAtFirstColon cs = none := by
  induction cs with
  | nil => rfl
  | cons c rest ih =>
    unfold splitAtFirstColon
    have hc : ¬c = ':' := fun he => h (he ▸ List.mem_cons_self c rest)
    rw [if_neg hc, ih (fun hm => h (List.mem_cons_of_mem c hm))]

theorem insertCred_keys (m : List (List Char × List (List Char)))
    (user pass : List Char) :
    ∀ k, k ∈ (insertCred m user pass).map Prod.fst →
      k ∈ m.map Prod.fst ∨ k = user := by
  induction m with
  | nil =>
    intro k hk
    simp [insertCred] at hk
    exact Or.inr hk
  | cons hd rest ih =>
    obtain ⟨u, ps⟩ := hd
    intro k hk
    by_cases he : u = user
    · rw [insertCred, if_pos he] at hk
      exact Or.inl hk
    · rw [insertCred, if_neg he, List.map_cons] at hk
      rcases List.mem_cons.mp hk with h1 | h1
      · exact Or.inl (by simp [h1])
      · rcases ih k h1 with h2 | h2
        · exact Or.inl (List.mem_cons_of_mem _ h2)
        · exact Or.inr h2

theorem insertCred_inv (m : List (List Char × List (List Char)))
    (user pass : List Char) (hnd : (m.map Prod.fst).Nodup)
    (hcf : ∀ q ∈ m, (':' : Char) ∉ q.1) (hu : (':' : Char) ∉ user) :
    ((insertCred m user pass).map Prod.fst).Nodup ∧
      ∀ q ∈ insertCred m user pass, (':' : Char) ∉ q.1 := by
  induction m with
  | nil =>
    refine ⟨by simp [insertCred], ?_⟩
    intro q hq
    simp [insertCred] at hq
    rw [hq]
    exact hu
  | cons hd rest ih =>
    obtain ⟨u, ps⟩ := hd
    by_cases he : u = user
    · rw [insertCred, if_pos he]
      refine ⟨hnd, ?_⟩
      intro q hq
      rcases List.mem_cons.mp hq with h1 | h1
      · rw [h1]
        exact hcf (u, ps) (List.mem_cons_self _ _)
      · exact hcf q (List.mem_cons_of_mem _ h1)
    · rw [insertCred, if_neg he]
      rw [List.map_cons, List.nodup_cons] at hnd
      obtain ⟨hu0, hnd2⟩ := hnd
      have hcf2 : ∀ q ∈ rest, (':' : Char) ∉ q.1 :=
        fun q hq => hcf q (List.mem_cons_of_mem _ hq)
      obtain ⟨ihnd, ihcf⟩ := ih hnd2 hcf2
      constructor
      · rw [List.map_cons, List.nodup_cons]
        refine ⟨?_, ihnd⟩
        intro hmem
        rcases insertCred_keys rest user pass u hmem with h1 | h1
        · exact hu0 h1
        · exact he h1
      · intro q hq
        rcases List.mem_cons.mp hq with h1 | h1
        · rw [h1]
          exact hcf (u, ps) (List.mem_cons_self _ _)
        · exact ihcf q h1

theorem parseCredsLoop_ok_inv (ps : List (List Char)) :
    ∀ m, (m.map Prod.fst).Nodup → (∀ q ∈ m, (':' : Char) ∉ q.1) →
    ∀ m2, parseCredsLoop ps m = .ok m2 →
      (m2.map Prod.fst).Nodup ∧ ∀ q ∈ m2, (':' : Char) ∉ q.1 := by
  induction ps with
  | nil =>
    intro m hnd hcf m2 h
    cases h
    exact ⟨hnd, hcf⟩
  | cons pair rest ih =>
    intro m hnd hcf m2 h
    unfold parseCredsLoop at h
    rcases hsp : splitAtFirstColon pair with _ | ⟨a, b2⟩
    · simp [splitN2Colon, hsp] at h
    · simp only [splitN2Colon, hsp] at h
      have ha : (':' : Char) ∉ a := (splitAtFirstColon_some pair a b2 hsp).1
      obtain ⟨hnd2, hcf2⟩ := insertCred_inv m a b2 hnd hcf ha
      exact ih (insertCred m a b2) hnd2 hcf2 m2 h

theorem parseCredsLoop_error (ps : List (List Char)) (pair : List Char)
    (hmem : pair ∈ ps) (hnc : (':' : Char) ∉ pair) :
    ∀ m, ∃ e, parseCredsLoop ps m = .error e := by
  induction ps with
  | nil => cases hmem
  | cons p0 rest ih =>
    intro m
    unfold parseCredsLoop
    rcases List.mem_cons.mp hmem with h1 | h1
    · subst h1
      rw [splitN2Colon, splitAtFirstColon_none pair hnc]
      exact ⟨pair, rfl⟩
    · rcases hsp : splitAtFirstColon p0 with _ | ⟨a, b2⟩
      · simp only [splitN2Colon, hsp]
        exact ⟨p0, rfl⟩
      · simp only [splitN2Colon, hsp]
        exact ih h1 (insertCred m a b2)

theorem parseCommaList_mem (l : List Char) (v : List Char)
    (hv : v ∈ parseCommaList l) :
    v ≠ [] ∧ ∃ w ∈ splitOnComma l, v = trimChars w := by
  unfold parseCommaList at hv
  rw [List.mem_dedup, List.mem_filter] at hv
  obtain ⟨hmap, hne⟩ := hv
  rw [List.mem_map] at hmap
  obtain ⟨w, hw, rfl⟩ := hmap
  exact ⟨by simpa using hne, w, hw, rfl⟩

/-- C10: a credential pair is split at its first colon only, so a
username never contains a colon while a password may (the pair a:b:c
yields user a with password b:c); pairs for the same username
accumulate into a single entry (the user keys of the parsed map are
distinct); entries of the comma list are trimmed and empty entries
dropped; and a non-empty pair without a colon makes startup fail. -/
theorem c10_parse_creds (l : List Char) :
    (∀ pair a b2, splitAtFirstColon pair = some (a, b2) →
      (':' : Char) ∉ a ∧ pair = a ++ ':' :: b2) ∧
    (∀ m, parseCreds l = .ok m →
      (∀ q ∈ m, (':' : Char) ∉ q.1) ∧ (m.map Prod.fst).Nodup) ∧
    (∀ v ∈ parseCommaList l,
      v ≠ [] ∧ ∃ w ∈ splitOnComma l, v = trimChars w) ∧
    (∀ pair ∈ parseCommaList l, (':' : Char) ∉ pair →
      ∃ e, parseCreds l = .error e) ∧
    (parseCreds ("a:b:c".data) = .ok [("a".data, ["b:c".data])]) ∧
    (parseCreds ("a:b, a:c".data)
      = .ok [("a".data, ["b".data, "c".data])]) := by
  refine ⟨fun pair => splitAtFirstColon_some pair, ?_, ?_, ?_, ?_, ?_⟩
  · intro m h
    obtain ⟨hnd, hcf⟩ := parseCredsLoop_ok_inv (parseCommaList l) []
      (by simp) (by simp) m h
    exact ⟨hcf, hnd⟩
  · exact fun v hv => parseCommaList_mem l v hv
  · intro pair hmem hnc
    exact parseCredsLoop_error (parseCommaList l) pair hmem hnc []
  · rfl
  · rfl

/-- Witness for C10: a colonless pair is fatal at a concrete input. -/
theorem c10_parse_creds_witness :
    ∃ e, parseCreds ("nocolon".data) = Except.error e :=
  (c10_parse_creds ("nocolon".data)).2.2.2.1 ("nocolon".data)
    (by decide) (by decide)

/-- C8 counterexample: two pty-req payload families abort the handler
before the forward, refuting the unconditional in-every-case
forwarding.  A payload leaving fewer than eight bytes after the
declared TERM string panics inside ParsePTYPayload, and a payload that
parses successfully with a zero-length TERM string (here with width 80
and height 24) panics inside PTYString on the Terminal log line. -/
theorem c8_counterexample :
    (handleChannelRequest "t" (initLogFile "f" "t" 100)
        ⟨"pty-req", true, [0, 0, 0, 0]⟩ 0 []
        ⟨Except.ok true, none, true⟩).panicked = true ∧
    (handleChannelRequest "t" (initLogFile "f" "t" 100)
        ⟨"pty-req", true, [0, 0, 0, 0]⟩ 0 []
        ⟨Except.ok true, none, true⟩).forwarded = none ∧
    (handleChannelRequest "t" (initLogFile "f" "t" 100)
        ⟨"pty-req", true, [0, 0, 0, 0, 0, 0, 0, 80, 0, 0, 0, 24]⟩ 0 []
        ⟨Except.ok true, none, true⟩).panicked = true ∧
    (handleChannelRequest "t" (initLogFile "f" "t" 100)
        ⟨"pty-req", true, [0, 0, 0, 0, 0, 0, 0, 80, 0, 0, 0, 24]⟩ 0 []
        ⟨Except.ok true, none, true⟩).forwarded = none := by
  refine ⟨?_, ?_, ?_, ?_⟩ <;> decide
